import Mathlib

/-!
Verification of the pvpwheel round lifecycle, draw algorithm and
synchronization behaviour against its specification.

The definitions below are a shallow embedding of the TypeScript sources:

* WheelGame.tsx (src/src/app/components/WheelGame.tsx) — the client
  component: COLORS, addPlayer, spinWheel, confirmGiftSelection, addToLog,
  the auto-spin effect;
* useGameDatabase (src/unnamed/part_001, lines 1-707) — the database hook:
  joinGameWithGifts, completeGame, addGameLog, the countdown interval;
* the addPlayer variant of src/unnamed/part_002 (lines 979-1017), which is
  the WheelGame.tsx addPlayer plus the countdown trigger on the 2nd join.

Monetary amounts (TON values, balances) are embedded as rationals; the
selection loop of spinWheel is a structural translation of its for-loop.
The storage helper library (src/lib/supabase, dbHelpers) is not among the
sources; definitions standing in for it are marked as modelled from the
spec in their doc comments.
-/

namespace PvpWheel

/-- Player record of WheelGame.tsx (interface Player): id, name, balance,
wheel color, gift emojis and total gift value. -/
structure Player where
  id : String
  name : String
  balance : ℚ
  color : String
  gifts : List String
  giftValue : ℚ
deriving Repr, DecidableEq

/-- Weight of a player on the wheel, as computed throughout spinWheel and
drawWheel: balance + giftValue. -/
def playerValue (p : Player) : ℚ := p.balance + p.giftValue

/-- The reduce computing totalValue in spinWheel (line 447). -/
def totalValue (ps : List Player) : ℚ := (ps.map playerValue).sum

/-- Sum of gift values only (the reduce computing totalGiftValue,
line 474). -/
def giftSum (ps : List Player) : ℚ := (ps.map Player.giftValue).sum

/-- The fixed 15-entry color palette (WheelGame.tsx lines 95-111). -/
def COLORS : List String :=
  ["#FF6B6B", "#4ECDC4", "#45B7D1", "#96CEB4", "#FFEAA7",
   "#DDA0DD", "#98D8C8", "#F7DC6F", "#BB8FCE", "#85C1E9",
   "#F8C471", "#82E0AA", "#F1948A", "#85929E", "#D7BDE2"]

/-- The winner-selection loop of spinWheel (lines 450-460): walk the
players in order keeping a running sum and stop at the first player whose
cumulative sum reaches the drawn value (randomValue <= currentSum). -/
def selectWinnerAux (r : ℚ) : ℚ → List Player → Option Player
  | _, [] => none
  | acc, p :: rest =>
    if r ≤ acc + playerValue p then some p
    else selectWinnerAux r (acc + playerValue p) rest

/-- The selection loop started with currentSum = 0. -/
def selectWinner (ps : List Player) (r : ℚ) : Option Player :=
  selectWinnerAux r 0 ps

/-- Full draw step of spinWheel: with fewer than 2 players the function
returns early (lines 429-432) and no winner is selected; otherwise the
selection loop runs on the drawn value. -/
def drawOutcome (ps : List Player) (r : ℚ) : Option Player :=
  if ps.length < 2 then none else selectWinner ps r

/-- The winner chance reported by spinWheel (line 476):
(playerValue / totalValue) * 100. -/
def winnerChancePct (p : Player) (ps : List Player) : ℚ :=
  playerValue p / totalValue ps * 100

/-- Cumulative weight of the first k players, used to state the
first-cumulative-hit property of the selection loop. -/
def takeSum (ps : List Player) (k : ℕ) : ℚ :=
  ((ps.take k).map playerValue).sum

theorem takeSum_zero (ps : List Player) : takeSum ps 0 = 0 := rfl

theorem takeSum_cons (p : Player) (ps : List Player) (k : ℕ) :
    takeSum (p :: ps) (k + 1) = playerValue p + takeSum ps k := by
  simp [takeSum]

theorem selectWinnerAux_spec (r : ℚ) :
    ∀ (ps : List Player) (acc : ℚ) (p : Player),
      selectWinnerAux r acc ps = some p →
      ∃ i, ∃ h : i < ps.length, p = ps.get ⟨i, h⟩ ∧
        r ≤ acc + takeSum ps (i + 1) ∧
        ∀ j < i, acc + takeSum ps (j + 1) < r := by
  intro ps
  induction ps with
  | nil => intro acc p h; simp [selectWinnerAux] at h
  | cons q rest ih =>
    intro acc p h
    rw [selectWinnerAux] at h
    by_cases hr : r ≤ acc + playerValue q
    · rw [if_pos hr] at h
      refine ⟨0, by simp, by simpa using h.symm, ?_, ?_⟩
      · simpa [takeSum_cons, takeSum_zero] using hr
      · intro j hj; exact absurd hj (Nat.not_lt_zero j)
    · rw [if_neg hr] at h
      obtain ⟨i, hi, hp, hub, hlb⟩ := ih (acc + playerValue q) p h
      refine ⟨i + 1, by simpa using Nat.succ_lt_succ hi, by simpa using hp, ?_, ?_⟩
      · rw [takeSum_cons]; linarith
      · intro j hj
        cases j with
        | zero =>
          push_neg at hr
          simpa [takeSum_cons, takeSum_zero] using hr
        | succ j =>
          have hji : j < i := Nat.lt_of_succ_lt_succ hj
          have := hlb j hji
          rw [takeSum_cons]; linarith

theorem selectWinnerAux_isSome (r : ℚ) :
    ∀ (ps : List Player) (acc : ℚ), ps ≠ [] →
      r ≤ acc + (ps.map playerValue).sum →
      (selectWinnerAux r acc ps).isSome = true := by
  intro ps
  induction ps with
  | nil => intro acc h; exact absurd rfl h
  | cons q rest ih =>
    intro acc _ hr
    rw [selectWinnerAux]
    by_cases hcase : r ≤ acc + playerValue q
    · rw [if_pos hcase]; rfl
    · rw [if_neg hcase]
      rcases rest with _ | ⟨q2, rest2⟩
      · exfalso
        apply hcase
        simpa using hr
      · apply ih (acc + playerValue q) (by simp)
        have : (q2 :: rest2).map playerValue = playerValue q2 :: rest2.map playerValue := rfl
        simp only [List.map_cons, List.sum_cons] at hr ⊢
        linarith

theorem totalValue_pos (ps : List Player) (hne : ps ≠ [])
    (hpos : ∀ p ∈ ps, 0 < playerValue p) : 0 < totalValue ps := by
  induction ps with
  | nil => exact absurd rfl hne
  | cons q rest ih =>
    have hq : 0 < playerValue q := hpos q (by simp)
    rcases rest with _ | ⟨q2, rest2⟩
    · simpa [totalValue] using hq
    · have hrest : 0 < totalValue (q2 :: rest2) := by
        apply ih (by simp)
        intro p hp; exact hpos p (by simp [hp])
      simp only [totalValue, List.map_cons, List.sum_cons] at hrest ⊢
      linarith

/-- First scenario player of spec section 8: joined first with weight 10
(balance 10, no gifts). -/
def pA : Player := ⟨"a", "A", 10, "#FF6B6B", [], 0⟩

/-- Second scenario player: joined second with weight 90. -/
def pB : Player := ⟨"b", "B", 90, "#4ECDC4", [], 0⟩

/-- Claim C2: for every non-empty ordered list of participants with
positive weights and draw value r = q * total with q uniform in [0,1),
the selection loop of spinWheel picks the first participant whose
cumulative sum (in list order) reaches r, and the reported chance is
weight(winner) / total (as a percentage); in particular for weights 10
and 90 in join order, q = 0.05 (r = 5) selects the first participant
with reported chance 10 and q = 0.5 (r = 50) selects the second with
reported chance 90. -/
theorem c2_draw_first_cumulative_hit (ps : List Player) (q : ℚ)
    (hne : ps ≠ []) (hpos : ∀ p ∈ ps, 0 < playerValue p)
    (_hq0 : 0 ≤ q) (hq1 : q < 1) :
    (∃ i, ∃ h : i < ps.length,
      selectWinner ps (q * totalValue ps) = some (ps.get ⟨i, h⟩) ∧
      q * totalValue ps ≤ takeSum ps (i + 1) ∧
      (∀ j < i, takeSum ps (j + 1) < q * totalValue ps) ∧
      winnerChancePct (ps.get ⟨i, h⟩) ps =
        playerValue (ps.get ⟨i, h⟩) / totalValue ps * 100)
    ∧ (drawOutcome [pA, pB] 5 = some pA ∧ winnerChancePct pA [pA, pB] = 10)
    ∧ (drawOutcome [pA, pB] 50 = some pB ∧ winnerChancePct pB [pA, pB] = 90) := by
  refine ⟨?_,
    ⟨by norm_num [drawOutcome, selectWinner, selectWinnerAux, playerValue, pA, pB],
     by norm_num [winnerChancePct, playerValue, totalValue, pA, pB]⟩,
    ⟨by norm_num [drawOutcome, selectWinner, selectWinnerAux, playerValue, pA, pB],
     by norm_num [winnerChancePct, playerValue, totalValue, pA, pB]⟩⟩
  have htot : 0 < totalValue ps := totalValue_pos ps hne hpos
  have hr : q * totalValue ps ≤ 0 + (ps.map playerValue).sum := by
    have : q * totalValue ps ≤ 1 * totalValue ps :=
      mul_le_mul_of_nonneg_right (le_of_lt hq1) (le_of_lt htot)
    simpa [totalValue] using this
  have hsome := selectWinnerAux_isSome (q * totalValue ps) ps 0 hne hr
  obtain ⟨p, hp⟩ := Option.isSome_iff_exists.mp hsome
  obtain ⟨i, hlt, hpi, hub, hlb⟩ :=
    selectWinnerAux_spec (q * totalValue ps) ps 0 p hp
  refine ⟨i, hlt, ?_, ?_, ?_, rfl⟩
  · rw [selectWinner, hp, hpi]
  · simpa using hub
  · intro j hj; simpa using hlb j hj

/-- Witness for c2_draw_first_cumulative_hit at the concrete two-player
pool with weights 10 and 90 and q = 1/20. -/
theorem c2_draw_first_cumulative_hit_witness :
    ∃ i, ∃ h : i < ([pA, pB] : List Player).length,
      selectWinner [pA, pB] ((1 : ℚ)/20 * totalValue [pA, pB]) =
        some (([pA, pB] : List Player).get ⟨i, h⟩) ∧
      (1 : ℚ)/20 * totalValue [pA, pB] ≤ takeSum [pA, pB] (i + 1) ∧
      (∀ j < i, takeSum [pA, pB] (j + 1) < (1 : ℚ)/20 * totalValue [pA, pB]) ∧
      winnerChancePct (([pA, pB] : List Player).get ⟨i, h⟩) [pA, pB] =
        playerValue (([pA, pB] : List Player).get ⟨i, h⟩) / totalValue [pA, pB] * 100 :=
  (c2_draw_first_cumulative_hit [pA, pB] (1/20) (by simp)
    (by intro p hp; simp only [List.mem_cons, List.not_mem_nil, or_false] at hp
        rcases hp with rfl | rfl <;> norm_num [playerValue, pA, pB])
    (by norm_num) (by norm_num)).1

/-- Zero-weight player used to refute claim C7. -/
def z1 : Player := ⟨"z1", "Z1", 0, "#FF6B6B", [], 0⟩

/-- Second zero-weight player used to refute claim C7. -/
def z2 : Player := ⟨"z2", "Z2", 0, "#4ECDC4", [], 0⟩

/-- Counterexample to claim C7: a two-player pool with total weight 0
(hence total ≤ 0 and r = rng() * total = 0) does not fail and does select
a winner — the accumulation loop returns the first participant. -/
theorem c7_zero_total_selects_first_counterexample :
    totalValue [z1, z2] = 0 ∧ drawOutcome [z1, z2] 0 = some z1 := by
  constructor
  · norm_num [totalValue, playerValue, z1, z2]
  · norm_num [drawOutcome, selectWinner, selectWinnerAux, playerValue, z1, z2]

/-- Claim C7 amended: spinWheel returns early with no winner whenever the
pool has fewer than 2 participants (there is no EmptyPoolError in the
code); with at least 2 participants of non-negative weight and total
weight 0, the draw does not fail: the drawn value is 0 and the loop
selects the first participant. -/
theorem c7_short_pool_no_winner_zero_total_first :
    (∀ (ps : List Player) (r : ℚ), ps.length < 2 → drawOutcome ps r = none)
    ∧ (∀ (p1 p2 : Player) (rest : List Player),
        (∀ p ∈ p1 :: p2 :: rest, 0 ≤ playerValue p) →
        totalValue (p1 :: p2 :: rest) = 0 →
        drawOutcome (p1 :: p2 :: rest) (0 * totalValue (p1 :: p2 :: rest)) =
          some p1) := by
  constructor
  · intro ps r h
    simp [drawOutcome, h]
  · intro p1 p2 rest hnn _
    have h1 : 0 ≤ playerValue p1 := hnn p1 (by simp)
    have hlen : ¬ (p1 :: p2 :: rest).length < 2 := by simp
    rw [drawOutcome, if_neg hlen]
    rw [selectWinner, selectWinnerAux, if_pos (by simpa using h1)]

/-- Witness for c7_short_pool_no_winner_zero_total_first: a singleton pool
yields no winner, and the all-zero two-player pool yields its first
player. -/
theorem c7_short_pool_no_winner_zero_total_first_witness :
    drawOutcome [pA] 3 = none ∧
    drawOutcome [z1, z2] (0 * totalValue [z1, z2]) = some z1 :=
  ⟨c7_short_pool_no_winner_zero_total_first.1 [pA] 3 (by simp),
   c7_short_pool_no_winner_zero_total_first.2 z1 z2 []
     (by intro p hp; simp only [List.mem_cons, List.not_mem_nil, or_false] at hp
         rcases hp with rfl | rfl <;> norm_num [playerValue, z1, z2])
     (by norm_num [totalValue, playerValue, z1, z2])⟩

/-- Remote game row (games table of the SQL schema): status, countdown
deadline and settlement fields. Timestamps are rationals. -/
structure GameRec where
  gid : String
  status : String
  countdown_ends_at : Option ℚ
  winner_id : Option String
  winner_chance : Option ℚ
  total_gift_value : ℚ
  completed_at : Option ℚ
deriving Repr, DecidableEq

/-- Modelled from the spec: dbHelpers.startGameCountdown of the storage
helper library (src/lib/supabase) is not among the sources; only its
callers are. Spec section 4.3: on the 2nd participant joining, set
countdownDeadline = now + 60s (fixed duration) if not already set. The
callers pass 60 as the duration. -/
def startGameCountdown (now : ℚ) (g : GameRec) : GameRec :=
  match g.countdown_ends_at with
  | some _ => g
  | none => { g with countdown_ends_at := some (now + 60) }

/-- Errors with which a join attempt is rejected; in the code these are
alert calls followed by an early return that mutates nothing. -/
inductive JoinError where
  | invalidInput
  | duplicateName
  | roundFull
deriving Repr, DecidableEq

/-- Local session state a join acts on: the player list and the mirror of
the current remote game row, if any. -/
structure SessionState where
  players : List Player
  currentGame : Option GameRec
deriving Repr, DecidableEq

/-- Input of addPlayer: the trimmed name, the parsed balance and the
randomly chosen gifts (made explicit parameters here). -/
structure JoinReq where
  rid : String
  name : String
  balance : ℤ
  gifts : List String
  giftValue : ℚ
deriving Repr, DecidableEq

/-- addPlayer of src/unnamed/part_002 lines 979-1017: validate name and
balance (1..10000), reject duplicate names, reject once 15 players are
present, otherwise append the new player with color
COLORS[players.length % COLORS.length] and, when the pre-join count is 1
(the joiner is the 2nd player) and a current game exists, start the game
countdown. The WheelGame.tsx variant (lines 390-423) is identical except
that it lacks the final countdown trigger. -/
def addPlayerRun (now : ℚ) (st : SessionState) (req : JoinReq) :
    SessionState × Option JoinError :=
  if req.name = "" ∨ req.balance < 1 ∨ 10000 < req.balance then
    (st, some .invalidInput)
  else if st.players.any (fun p => p.name = req.name) then
    (st, some .duplicateName)
  else if 15 ≤ st.players.length then
    (st, some .roundFull)
  else
    let newPlayer : Player :=
      { id := req.rid, name := req.name, balance := (req.balance : ℚ),
        color := COLORS.getD (st.players.length % COLORS.length) "",
        gifts := req.gifts, giftValue := req.giftValue }
    let game := if st.players.length = 1
      then st.currentGame.map (startGameCountdown now)
      else st.currentGame
    ({ players := st.players ++ [newPlayer], currentGame := game }, none)

/-- Input of confirmGiftSelection: the resolved display name, whether the
gift selection is empty, and the emojis and total value computed from the
selection against the inventory. -/
structure ConfirmReq where
  rid : String
  name : String
  selEmpty : Bool
  emojis : List String
  giftValue : ℚ
deriving Repr, DecidableEq

/-- Local game logic of confirmGiftSelection (part_002 lines 1347-1504):
reject an empty selection or a missing name, reject once 15 players are
present; otherwise either merge the gifts into the existing player with
that name, or append a new player with balance 0 and color
COLORS[players.length % COLORS.length], starting the countdown when the
pre-join count is 1 and a game exists. -/
def confirmGiftRun (now : ℚ) (st : SessionState) (req : ConfirmReq) :
    SessionState × Option JoinError :=
  if req.selEmpty then (st, some .invalidInput)
  else if req.name = "" then (st, some .invalidInput)
  else if 15 ≤ st.players.length then (st, some .roundFull)
  else if st.players.any (fun p => p.name = req.name) then
    ({ st with players := st.players.map (fun p =>
        if p.name = req.name then
          { p with gifts := p.gifts ++ req.emojis,
                   giftValue := p.giftValue + req.giftValue }
        else p) }, none)
  else
    let newPlayer : Player :=
      { id := req.rid, name := req.name, balance := 0,
        color := COLORS.getD (st.players.length % COLORS.length) "",
        gifts := req.emojis, giftValue := req.giftValue }
    let game := if st.players.length = 1
      then st.currentGame.map (startGameCountdown now)
      else st.currentGame
    ({ players := st.players ++ [newPlayer], currentGame := game }, none)

/-- Events observed by one client of WheelGame.tsx: a countdown poll
result (the interval of useGameDatabase lines 652-673), a run of the
auto-spin effect (lines 550-557), the end of the spin animation, the
post-settlement timeout 3 seconds after the winner is shown (lines
515-534), and a completed reload of the current game. -/
inductive ClientEv where
  | tick (timeLeft : ℤ)
  | autoSpinCheck
  | spinFinished
  | postSettleReset
  | gameLoaded (gid : String) (ps : List Player)
deriving Repr, DecidableEq

/-- Client-local state driving the auto-spin decision: the current game
id, the database player mirror, the local player list, the isSpinning
flag, the last polled countdown value, and the log of draw triggers
(tagged with the game id current at trigger time). -/
structure ClientSt where
  currentGameId : Option String
  dbPlayers : List Player
  localPlayers : List Player
  isSpinning : Bool
  gameCountdown : Option ℤ
  drawTriggers : List (Option String)
deriving Repr, DecidableEq

/-- The activePlayers expression used throughout WheelGame.tsx:
dbPlayers if non-empty, else the local players. -/
def activePlayers (c : ClientSt) : List Player :=
  if c.dbPlayers.length ≠ 0 then c.dbPlayers else c.localPlayers

/-- One client event step. tick: the countdown interval exists only while
a current game is set and dbPlayers has at least 2 entries; it stores the
polled time, clamped to 0 once expired. autoSpinCheck: the auto-spin
effect guard (countdown 0, not spinning, at least 2 active players)
combined with the re-checks at the top of spinWheel; on success
isSpinning is set and the draw is triggered for the current game id.
postSettleReset: the timeout 3 seconds after the winner modal sets
isSpinning back to false and clears the local players (dbPlayers is not
cleared there). gameLoaded: getCurrentGame stored a (possibly new) game
and its participants. -/
def clientStep (c : ClientSt) : ClientEv → ClientSt
  | .tick t =>
      if c.currentGameId.isSome ∧ 2 ≤ c.dbPlayers.length then
        { c with gameCountdown := some (if t ≤ 0 then 0 else t) }
      else c
  | .autoSpinCheck =>
      if c.gameCountdown = some 0 ∧ c.isSpinning = false ∧
          2 ≤ (activePlayers c).length then
        { c with isSpinning := true,
                 drawTriggers := c.drawTriggers ++ [c.currentGameId] }
      else c
  | .spinFinished => c
  | .postSettleReset => { c with isSpinning := false, localPlayers := [] }
  | .gameLoaded gid ps => { c with currentGameId := some gid, dbPlayers := ps }

/-- Folding a list of events over the client state. -/
def clientRun (c : ClientSt) (evs : List ClientEv) : ClientSt :=
  evs.foldl clientStep c

/-- Claim C5: the countdown deadline is set to now + 60 seconds exactly
when the 2nd participant joins (if not already set); a round holding
exactly one participant keeps the deadline unset and no countdown
interval runs. Part 1: a valid join into a 1-player round with an unset
deadline sets it to now + 60. Part 2: if the deadline was already set it
is unchanged. Part 3: a join at any other pre-join count (in particular
the 1st join) leaves the game row unchanged. Part 4: the countdown poll
does nothing while fewer than 2 players are present. -/
theorem c5_countdown_set_on_second_join :
    (∀ (now : ℚ) (st : SessionState) (req : JoinReq) (g : GameRec),
        st.players.length = 1 →
        ¬(req.name = "" ∨ req.balance < 1 ∨ 10000 < req.balance) →
        st.players.any (fun p => p.name = req.name) = false →
        st.currentGame = some g →
        g.countdown_ends_at = none →
        (addPlayerRun now st req).1.currentGame =
          some { g with countdown_ends_at := some (now + 60) }) ∧
    (∀ (now : ℚ) (st : SessionState) (req : JoinReq) (g : GameRec) (d : ℚ),
        st.players.length = 1 →
        ¬(req.name = "" ∨ req.balance < 1 ∨ 10000 < req.balance) →
        st.players.any (fun p => p.name = req.name) = false →
        st.currentGame = some g →
        g.countdown_ends_at = some d →
        (addPlayerRun now st req).1.currentGame = some g) ∧
    (∀ (now : ℚ) (st : SessionState) (req : JoinReq),
        st.players.length ≠ 1 →
        (addPlayerRun now st req).1.currentGame = st.currentGame) ∧
    (∀ (c : ClientSt) (t : ℤ), c.dbPlayers.length ≤ 1 →
        clientStep c (.tick t) = c) := by
  refine ⟨?_, ?_, ?_, ?_⟩
  · intro now st req g h1 hval hdup hg hcd
    have h15 : ¬ 15 ≤ st.players.length := by omega
    simp [addPlayerRun, hval, hdup, h15, h1, hg, startGameCountdown, hcd]
  · intro now st req g d h1 hval hdup hg hcd
    have h15 : ¬ 15 ≤ st.players.length := by omega
    simp [addPlayerRun, hval, hdup, h15, h1, hg, startGameCountdown, hcd]
  · intro now st req hne
    rw [addPlayerRun]
    split_ifs with h1 h2 h3
    · rfl
    · rfl
    · rfl
    · simp [hne]
  · intro c t hle
    have h2 : ¬ (2 ≤ c.dbPlayers.length) := by omega
    simp [clientStep, h2]

/-- Game row used in concrete scenarios: a waiting round with no
countdown deadline set. -/
def g0 : GameRec := ⟨"g", "waiting", none, none, none, 0, none⟩

/-- One-player session used in concrete scenarios. -/
def st1 : SessionState := ⟨[pA], some g0⟩

/-- Join request of the scenario 2nd player. -/
def reqB : JoinReq := ⟨"rb", "B", 90, [], 0⟩

/-- Client state of a round holding exactly one participant. -/
def cSolo : ClientSt := ⟨some "g", [pA], [pA], false, none, []⟩

/-- Witness for c5_countdown_set_on_second_join: the 2nd join at time 100
sets the deadline of g0 to 160, and a countdown poll in a 1-player round
changes nothing. -/
theorem c5_countdown_set_on_second_join_witness :
    (addPlayerRun 100 st1 reqB).1.currentGame =
      some { g0 with countdown_ends_at := some (100 + 60) } ∧
    clientStep cSolo (.tick 0) = cSolo :=
  ⟨c5_countdown_set_on_second_join.1 100 st1 reqB g0 rfl
      (by decide) (by decide) rfl rfl,
   c5_countdown_set_on_second_join.2.2.2 cSolo 0 (by decide)⟩

/-- Claim C6: once a round holds 15 players, a further join attempt is
rejected and the round state is unchanged by the rejected attempt; a
well-formed attempt (valid name and balance, fresh name) is rejected
precisely with the round-full error, both on the addPlayer path and on
the confirmGiftSelection path. -/
theorem c6_full_round_join_rejected (now : ℚ) (st : SessionState)
    (req : JoinReq) (creq : ConfirmReq)
    (hfull : 15 ≤ st.players.length) :
    (addPlayerRun now st req).1 = st ∧
    (req.name ≠ "" → 1 ≤ req.balance → req.balance ≤ 10000 →
      st.players.any (fun p => p.name = req.name) = false →
      (addPlayerRun now st req).2 = some .roundFull) ∧
    (confirmGiftRun now st creq).1 = st ∧
    (creq.selEmpty = false → creq.name ≠ "" →
      (confirmGiftRun now st creq).2 = some .roundFull) := by
  refine ⟨?_, ?_, ?_, ?_⟩
  · rw [addPlayerRun]
    split_ifs with h1 h2
    · rfl
    · rfl
    · rfl
  · intro hn hb1 hb2 hdup
    have hval : ¬(req.name = "" ∨ req.balance < 1 ∨ 10000 < req.balance) := by
      push_neg
      exact ⟨hn, by omega, by omega⟩
    simp [addPlayerRun, hval, hdup, hfull]
  · rw [confirmGiftRun]
    split_ifs with h1 h2
    · rfl
    · rfl
    · rfl
  · intro hsel hn
    simp [confirmGiftRun, hsel, hn, hfull]

/-- A full 15-player session (players P0 .. P14). -/
def full15 : SessionState :=
  ⟨(List.range 15).map (fun n =>
      ⟨toString n, "P" ++ toString n, 1, COLORS.getD (n % 15) "", [], 0⟩),
   some g0⟩

/-- The 16th join attempt, with valid name and balance. -/
def reqX : JoinReq := ⟨"rx", "X", 50, [], 0⟩

/-- The 16th gift-join attempt. -/
def creqX : ConfirmReq := ⟨"rx", "X", false, ["g"], 1⟩

/-- Witness for c6_full_round_join_rejected: the 16th attempt on a
15-player round is rejected with roundFull and the session is unchanged,
on both join paths. -/
theorem c6_full_round_join_rejected_witness :
    (addPlayerRun 0 full15 reqX).1 = full15 ∧
    (addPlayerRun 0 full15 reqX).2 = some .roundFull ∧
    (confirmGiftRun 0 full15 creqX).1 = full15 ∧
    (confirmGiftRun 0 full15 creqX).2 = some .roundFull := by
  have h := c6_full_round_join_rejected 0 full15 reqX creqX (by decide)
  exact ⟨h.1, h.2.1 (by decide) (by decide) (by decide) (by decide),
         h.2.2.1, h.2.2.2 rfl (by decide)⟩

theorem COLORS_length : COLORS.length = 15 := rfl

theorem COLORS_nodup : COLORS.Nodup := by decide

theorem getD_COLORS (n : ℕ) (h : n < COLORS.length) :
    COLORS.getD n "" = COLORS.get ⟨n, h⟩ := by
  rw [List.getD_eq_get?, List.get?_eq_get h]
  rfl

theorem take_succ_COLORS (n : ℕ) (h : n < COLORS.length) :
    COLORS.take (n + 1) = COLORS.take n ++ [COLORS.get ⟨n, h⟩] := by
  rw [List.take_succ]
  congr 1
  rw [← List.get?_eq_getElem?, List.get?_eq_get h]
  rfl

/-- A join action of one round: either the balance join of addPlayer or
the gift join of confirmGiftSelection. -/
inductive JoinAct where
  | viaBalance (req : JoinReq)
  | viaGifts (req : ConfirmReq)

/-- Apply one join action to the session (erasing the error report, since
a rejected attempt leaves the state unchanged). -/
def applyJoin (now : ℚ) (st : SessionState) : JoinAct → SessionState
  | .viaBalance req => (addPlayerRun now st req).1
  | .viaGifts req => (confirmGiftRun now st req).1

/-- The fresh round a session starts from. -/
def emptySession : SessionState := ⟨[], none⟩

/-- Session reached from a fresh round by a sequence of join attempts. -/
def joinAll (now : ℚ) (acts : List JoinAct) : SessionState :=
  acts.foldl (applyJoin now) emptySession

/-- Color invariant: at most 15 players, and the colors in position order
are exactly the first entries of the palette. -/
def ColorInv (st : SessionState) : Prop :=
  st.players.length ≤ 15 ∧
  st.players.map Player.color = COLORS.take st.players.length

theorem colorInv_append (st : SessionState) (inv : ColorInv st)
    (np : Player) (hlt : st.players.length < 15)
    (hc : np.color = COLORS.getD (st.players.length % COLORS.length) "") :
    (st.players ++ [np]).length ≤ 15 ∧
    (st.players ++ [np]).map Player.color =
      COLORS.take (st.players.length + 1) := by
  obtain ⟨hlen, hmap⟩ := inv
  have hltC : st.players.length < COLORS.length := by
    rw [COLORS_length]; exact hlt
  have hmod : st.players.length % COLORS.length = st.players.length :=
    Nat.mod_eq_of_lt hltC
  constructor
  · simp only [List.length_append, List.length_cons, List.length_nil]
    omega
  · rw [List.map_append, hmap, take_succ_COLORS st.players.length hltC]
    simp only [List.map_cons, List.map_nil]
    rw [hc, hmod, getD_COLORS st.players.length hltC]

theorem colorInv_append_state (st : SessionState) (inv : ColorInv st)
    (np : Player) (g : Option GameRec) (hlt : st.players.length < 15)
    (hc : np.color = COLORS.getD (st.players.length % COLORS.length) "") :
    ColorInv ⟨st.players ++ [np], g⟩ := by
  have h := colorInv_append st inv np hlt hc
  refine ⟨h.1, ?_⟩
  show (st.players ++ [np]).map Player.color =
    COLORS.take ((st.players ++ [np]).length)
  have hl : (st.players ++ [np]).length = st.players.length + 1 := by simp
  rw [hl]
  exact h.2

theorem applyJoin_colorInv (now : ℚ) (st : SessionState) (a : JoinAct)
    (inv : ColorInv st) : ColorInv (applyJoin now st a) := by
  cases a with
  | viaBalance req =>
    rw [applyJoin, addPlayerRun]
    split_ifs with h1 h2 h3
    · exact inv
    · exact inv
    · exact inv
    all_goals {
      have hlt : st.players.length < 15 := by omega
      refine colorInv_append_state st inv _ _ hlt ?_
      rfl }
  | viaGifts req =>
    rw [applyJoin, confirmGiftRun]
    split_ifs with h1 h2 h3 h4
    · exact inv
    · exact inv
    · exact inv
    · obtain ⟨hlen, hmap⟩ := inv
      refine ⟨by simpa using hlen, ?_⟩
      have hcol : st.players.map (fun p => Player.color
          (if p.name = req.name then
            { p with gifts := p.gifts ++ req.emojis,
                     giftValue := p.giftValue + req.giftValue }
          else p)) = st.players.map Player.color := by
        apply List.map_congr_left
        intro p _
        by_cases hp : p.name = req.name <;> simp [hp]
      simp only [List.map_map, List.length_map]
      calc st.players.map (Player.color ∘ fun p =>
            if p.name = req.name then
              { p with gifts := p.gifts ++ req.emojis,
                       giftValue := p.giftValue + req.giftValue }
            else p)
          = st.players.map Player.color := hcol
        _ = COLORS.take st.players.length := hmap
    all_goals {
      have hlt : st.players.length < 15 := by omega
      refine colorInv_append_state st inv _ _ hlt ?_
      rfl }

theorem joinAll_colorInv (now : ℚ) (acts : List JoinAct) :
    ∀ st, ColorInv st → ColorInv (acts.foldl (applyJoin now) st) := by
  induction acts with
  | nil => intro st h; exact h
  | cons a rest ih =>
    intro st h
    exact ih _ (applyJoin_colorInv now st a h)

/-- Claim C10: in any round built from a fresh session by a sequence of
join attempts (balance joins or gift joins, with no removals), the player
at zero-based join index i carries color COLORS[i % 15]; since a round
admits at most 15 players, all colors within the round are pairwise
distinct. -/
theorem c10_join_colors_distinct (now : ℚ) (acts : List JoinAct) :
    (joinAll now acts).players.length ≤ 15 ∧
    (∀ i, ∀ h : i < (joinAll now acts).players.length,
      ((joinAll now acts).players.get ⟨i, h⟩).color =
        COLORS.getD (i % COLORS.length) "") ∧
    ((joinAll now acts).players.map Player.color).Nodup := by
  have hinv : ColorInv (joinAll now acts) :=
    joinAll_colorInv now acts emptySession ⟨by simp [emptySession], by simp [emptySession]⟩
  obtain ⟨hlen, hmap⟩ := hinv
  refine ⟨hlen, ?_, ?_⟩
  · intro i h
    have hi15 : i < 15 := lt_of_lt_of_le h hlen
    have hiC : i < COLORS.length := by rw [COLORS_length]; exact hi15
    have hmod : i % COLORS.length = i := Nat.mod_eq_of_lt hiC
    have hmem : i < ((joinAll now acts).players.map Player.color).length := by
      simpa using h
    have e1 : ((joinAll now acts).players.map Player.color)[i] =
        ((joinAll now acts).players[i]).color := List.getElem_map _
    have e2 := List.getElem_of_eq hmap hmem
    have hmem2 : i < (COLORS.take (joinAll now acts).players.length).length := by
      rw [List.length_take]
      exact lt_min h (COLORS_length ▸ hi15)
    have e3 : (COLORS.take (joinAll now acts).players.length)[i] = COLORS[i] :=
      List.getElem_take _
    rw [hmod, getD_COLORS i hiC]
    have : ((joinAll now acts).players[i]).color = COLORS[i] := by
      rw [← e1, e2, e3]
    simpa [List.get_eq_getElem] using this
  · rw [hmap]
    exact List.Nodup.sublist (List.take_sublist _ _) COLORS_nodup

/-- Witness for c10_join_colors_distinct: two concrete joins give the
first two palette colors and a duplicate-free color list. -/
theorem c10_join_colors_distinct_witness :
    (joinAll 0 [JoinAct.viaBalance ⟨"ra", "A", 10, [], 0⟩,
                JoinAct.viaBalance ⟨"rb", "B", 90, [], 0⟩]).players.length ≤ 15 ∧
    ((joinAll 0 [JoinAct.viaBalance ⟨"ra", "A", 10, [], 0⟩,
                 JoinAct.viaBalance ⟨"rb", "B", 90, [], 0⟩]).players.get
        ⟨0, by decide⟩).color = COLORS.getD (0 % COLORS.length) "" ∧
    ((joinAll 0 [JoinAct.viaBalance ⟨"ra", "A", 10, [], 0⟩,
                 JoinAct.viaBalance ⟨"rb", "B", 90, [], 0⟩]).players.map
        Player.color).Nodup :=
  ⟨(c10_join_colors_distinct 0 _).1,
   (c10_join_colors_distinct 0 _).2.1 0 (by decide),
   (c10_join_colors_distinct 0 _).2.2⟩

/-- Client state of a two-player round whose countdown has not yet been
polled: current game g, both player mirrors filled, not spinning. -/
def c3Start : ClientSt := ⟨some "g", [pA, pB], [pA, pB], false, none, []⟩

/-- Event sequence in which the countdown expires, the draw is triggered
and completes, the 3-second post-settlement reset fires while the
countdown value is still 0 and the database players are still those of
round g, and the auto-spin effect runs again. -/
def c3Evs : List ClientEv :=
  [.tick 0, .autoSpinCheck, .spinFinished, .postSettleReset, .autoSpinCheck]

/-- Counterexample to claim C3: after the post-settlement reset of the
isSpinning flag, a stale zero countdown with the old participant list
makes the same client trigger a second draw for the same round g — the
flag is not per-round monotonic. -/
theorem c3_double_trigger_counterexample :
    (clientRun c3Start c3Evs).drawTriggers = [some "g", some "g"] ∧
    ¬ (clientRun c3Start c3Evs).drawTriggers.length ≤ 1 := by
  constructor
  · rfl
  · decide

/-- Invariant carrying the amended claim C3: at most one draw trigger so
far, and once one happened the isSpinning flag is set. -/
def TriggerInv (c : ClientSt) : Prop :=
  c.drawTriggers.length ≤ 1 ∧ (c.drawTriggers ≠ [] → c.isSpinning = true)

theorem clientStep_triggerInv (c : ClientSt) (e : ClientEv)
    (he : e ≠ .postSettleReset) (h : TriggerInv c) :
    TriggerInv (clientStep c e) := by
  cases e with
  | tick t =>
    rw [clientStep]
    split_ifs with hc hc2
    · exact ⟨h.1, h.2⟩
    · exact ⟨h.1, h.2⟩
    · exact h
  | autoSpinCheck =>
    rw [clientStep]
    split_ifs with hc
    · obtain ⟨hc1, hc2, hc3⟩ := hc
      have hemp : c.drawTriggers = [] := by
        by_cases hne : c.drawTriggers = []
        · exact hne
        · rw [h.2 hne] at hc2
          exact absurd hc2 (by simp)
      constructor
      · simp [hemp]
      · intro _; rfl
    · exact h
  | spinFinished => exact h
  | postSettleReset => exact absurd rfl he
  | gameLoaded gid ps => exact ⟨h.1, h.2⟩

/-- Claim C3 amended: the isSpinning flag does prevent a second trigger
for as long as it stays set — in any event sequence containing no
post-settlement reset, a client starting with no triggers performs at
most one draw trigger, however many times the countdown zero-crossing is
observed; the flag is reset 3 seconds after settlement rather than being
per-round monotonic, after which the same round can be re-triggered (see
the counterexample). -/
theorem c3_single_trigger_before_reset (c : ClientSt) (evs : List ClientEv)
    (h0 : c.drawTriggers = [])
    (hnr : ∀ e ∈ evs, e ≠ ClientEv.postSettleReset) :
    (clientRun c evs).drawTriggers.length ≤ 1 := by
  have key : ∀ (l : List ClientEv) (s : ClientSt), TriggerInv s →
      (∀ e ∈ l, e ≠ ClientEv.postSettleReset) → TriggerInv (clientRun s l) := by
    intro l
    induction l with
    | nil => intro s hs _; exact hs
    | cons e rest ih =>
      intro s hs hm
      exact ih (clientStep s e)
        (clientStep_triggerInv s e (hm e (by simp)) hs)
        (fun x hx => hm x (by simp [hx]))
  exact (key evs c ⟨by simp [h0], fun hne => absurd h0 hne⟩ hnr).1

/-- Witness for c3_single_trigger_before_reset: three zero-crossing
observations without a reset yield at most one trigger. -/
theorem c3_single_trigger_before_reset_witness :
    (clientRun c3Start
      [.tick 0, .autoSpinCheck, .autoSpinCheck, .tick 0, .autoSpinCheck]).drawTriggers.length ≤ 1 :=
  c3_single_trigger_before_reset c3Start
    [.tick 0, .autoSpinCheck, .autoSpinCheck, .tick 0, .autoSpinCheck]
    rfl (by decide)

/-- The settlement fields completeGame passes to the store row (part_001
lines 354-363). -/
structure GameUpdate where
  gameId : String
  winner_id : String
  winner_chance : ℚ
  total_gift_value : ℚ
deriving Repr, DecidableEq

/-- Settlement step inside spinWheel (WheelGame.tsx lines 447-496): the
draw runs on the active players with the drawn value r; if a current game
and a logged-in player are present, completeGame is called with
winner_id := currentPlayer.id — the id of the client running the spin
(line 481) — together with the chance of the locally drawn winner and the
total gift value. The locally drawn winner is what the UI displays. -/
def spinSettle (active : List Player) (currentGameId : Option String)
    (currentPlayerId : Option String) (r : ℚ) :
    Option Player × Option GameUpdate :=
  match drawOutcome active r with
  | none => (none, none)
  | some w =>
    let upd := match currentGameId, currentPlayerId with
      | some gid, some pid =>
          some ⟨gid, pid, winnerChancePct w active, giftSum active⟩
      | _, _ => none
    (some w, upd)

/-- Claim C1 (code bug evidence): in round g with participants a (weight
10) and b (weight 90), a spin performed by the client logged in as player
c (not even a participant) with draw value 5 selects participant a, yet
the settlement update writes winner_id = c — not the drawn winner and not
a participant present in the round. -/
theorem c1_settle_write_diverges_from_draw :
    (spinSettle [pA, pB] (some "g") (some "c") 5).1 = some pA ∧
    ((spinSettle [pA, pB] (some "g") (some "c") 5).2.map GameUpdate.winner_id)
      = some "c" ∧
    ¬ ("c" ∈ [pA, pB].map Player.id) := by
  have hd : drawOutcome [pA, pB] 5 = some pA := by
    norm_num [drawOutcome, selectWinner, selectWinnerAux, playerValue, pA, pB]
  refine ⟨?_, ?_, ?_⟩
  · simp [spinSettle, hd]
  · simp [spinSettle, hd]
  · decide

/-- Result of one client running spinWheel: whether the draw engine was
invoked, the locally drawn winner shown by the UI, and the settlement
update sent to the store. -/
structure SpinRes where
  drawInvoked : Bool
  localWinner : Option Player
  update : Option GameUpdate
deriving Repr, DecidableEq

/-- spinWheel as executed by one client: the early returns (fewer than 2
active players, already spinning) skip the draw; otherwise the draw runs
locally — before and independently of any store write — and the
settlement update of spinSettle is produced. The winner display uses the
local draw result regardless of the write outcome (lines 510-512). -/
def clientSpin (c : ClientSt) (currentPlayerId : Option String) (r : ℚ) :
    SpinRes :=
  if (activePlayers c).length < 2 then ⟨false, none, none⟩
  else if c.isSpinning then ⟨false, none, none⟩
  else
    let res := spinSettle (activePlayers c) c.currentGameId currentPlayerId r
    ⟨true, res.1, res.2⟩

/-- Modelled from the spec: dbHelpers.updateGameStatus (storage helper,
not among the sources) applied to a completion; completeGame (part_001
lines 344-369) passes only the new status completed and the settlement
fields. Spec section 6 specifies compareAndSetRoundStatus: the write
succeeds only if the current remote status still matches the expected
prior state, here the waiting status of an undecided round. -/
def casCompleteGame (g : GameRec) (upd : GameUpdate) (now : ℚ) :
    Bool × GameRec :=
  if g.status = "waiting" then
    (true, { g with
      status := "completed"
      winner_id := some upd.winner_id
      winner_chance := some upd.winner_chance
      total_gift_value := upd.total_gift_value
      completed_at := some now })
  else (false, g)

/-- Outcome of two clients racing to settle the same round: both spin
results, the acceptance bit of each store write, and the final row. -/
structure RaceRes where
  o1 : SpinRes
  o2 : SpinRes
  firstWriteOk : Bool
  secondWriteOk : Bool
  store : GameRec
deriving Repr, DecidableEq

/-- Two clients that both observed the countdown expire run spinWheel;
their settlement writes reach the store in sequence, each through the
spec-modelled compare-and-set. -/
def runRace (g : GameRec) (c1 c2 : ClientSt) (p1 p2 : Option String)
    (r1 r2 : ℚ) (now : ℚ) : RaceRes :=
  let o1 := clientSpin c1 p1 r1
  let s1 := match o1.update with
    | some u => casCompleteGame g u now
    | none => (false, g)
  let o2 := clientSpin c2 p2 r2
  let s2 := match o2.update with
    | some u => casCompleteGame s1.2 u now
    | none => (false, s1.2)
  ⟨o1, o2, s1.1, s2.1, s2.2⟩

/-- Client state of round g at the moment the countdown expired, as seen
by either racing client. -/
def cRace : ClientSt := ⟨some "g", [pA, pB], [pA, pB], false, some 0, []⟩

/-- Counterexample to claim C4: two clients (logged in as players a and
b) race to settle round g; the draw engine is invoked by both clients
(two draws, not exactly one), and although the second store write is
rejected by the spec-modelled compare-and-set, the losing client keeps
displaying its own locally drawn winner b while the store row carries
winner a — it does not reconcile to the winner of the race. -/
theorem c4_duplicate_draw_counterexample :
    (runRace g0 cRace cRace (some "a") (some "b") 5 50 0).o1.drawInvoked = true ∧
    (runRace g0 cRace cRace (some "a") (some "b") 5 50 0).o2.drawInvoked = true ∧
    (runRace g0 cRace cRace (some "a") (some "b") 5 50 0).firstWriteOk = true ∧
    (runRace g0 cRace cRace (some "a") (some "b") 5 50 0).secondWriteOk = false ∧
    (runRace g0 cRace cRace (some "a") (some "b") 5 50 0).o2.localWinner = some pB ∧
    (runRace g0 cRace cRace (some "a") (some "b") 5 50 0).store.winner_id = some "a" := by
  have h1 : drawOutcome [pA, pB] 5 = some pA := by
    norm_num [drawOutcome, selectWinner, selectWinnerAux, playerValue, pA, pB]
  have h2 : drawOutcome [pA, pB] 50 = some pB := by
    norm_num [drawOutcome, selectWinner, selectWinnerAux, playerValue, pA, pB]
  have ha : activePlayers cRace = [pA, pB] := rfl
  refine ⟨?_, ?_, ?_, ?_, ?_, ?_⟩ <;>
    simp [runRace, clientSpin, spinSettle, activePlayers, ha, h1, h2,
      casCompleteGame, cRace, g0]

/-- Claim C4 amended: the race is not arbitrated before drawing — every
client whose guards pass (not spinning, at least 2 active players)
invokes the draw engine locally, so two racing clients perform two draws;
with the store write modelled from the spec as a compare-and-set, a write
against a round that is no longer waiting is rejected and leaves the row
unchanged, while the first write against a waiting round succeeds and
completes the round. -/
theorem c4_race_draws_per_client :
    (∀ (c : ClientSt) (pid : Option String) (r : ℚ),
        c.isSpinning = false → 2 ≤ (activePlayers c).length →
        (clientSpin c pid r).drawInvoked = true) ∧
    (∀ (g : GameRec) (u : GameUpdate) (now : ℚ),
        g.status ≠ "waiting" → casCompleteGame g u now = (false, g)) ∧
    (∀ (g : GameRec) (u : GameUpdate) (now : ℚ),
        g.status = "waiting" →
        (casCompleteGame g u now).1 = true ∧
        (casCompleteGame g u now).2.status = "completed") := by
  refine ⟨?_, ?_, ?_⟩
  · intro c pid r hsp hlen
    have hnl : ¬ (activePlayers c).length < 2 := by omega
    simp [clientSpin, hnl, hsp]
  · intro g u now hst
    simp [casCompleteGame, hst]
  · intro g u now hst
    simp [casCompleteGame, hst]

/-- A completed round row, used to witness the rejection branch. -/
def gDone : GameRec := ⟨"g", "completed", none, some "a", some 10, 0, some 0⟩

/-- Update payload used in the compare-and-set witnesses. -/
def updB : GameUpdate := ⟨"g", "b", 90, 0⟩

/-- Witness for c4_race_draws_per_client: a ready client invokes the
draw; a write against a completed row is rejected unchanged; a write
against a waiting row succeeds and completes it. -/
theorem c4_race_draws_per_client_witness :
    (clientSpin cRace (some "a") 5).drawInvoked = true ∧
    casCompleteGame gDone updB 0 = (false, gDone) ∧
    ((casCompleteGame g0 updB 0).1 = true ∧
      (casCompleteGame g0 updB 0).2.status = "completed") :=
  ⟨c4_race_draws_per_client.1 cRace (some "a") 5 rfl (by decide),
   c4_race_draws_per_client.2.1 gDone updB 0 (by decide),
   c4_race_draws_per_client.2.2 g0 updB 0 rfl⟩

/-- Session state for the join-with-store flow: the local player mirror,
the remote identifiers, the error state set by the hook, and the log of
attempted remote writes. -/
structure C8St where
  localPlayers : List Player
  currentGameId : Option String
  currentPlayerId : Option String
  errorFlag : Option String
  remoteWrites : List String
deriving Repr, DecidableEq

/-- joinGameWithGifts of useGameDatabase (part_001 lines 205-268) as seen
by the component: the durable join write is attempted; when the store
reports an error the hook records the error state and returns none — no
exception escapes to the caller; on success the participant row is
returned. The store is represented by a flag saying whether the durable
write fails. -/
def joinGameWithGifts (storeFails : Bool) (st : C8St) (gid : String) :
    Option String × C8St :=
  if storeFails then
    (none, { st with
      errorFlag := some "Failed to join game"
      remoteWrites := st.remoteWrites ++ ["join " ++ gid] })
  else
    (some "participant", { st with
      remoteWrites := st.remoteWrites ++ ["join " ++ gid] })

/-- confirmGiftSelection of part_002 lines 1347-1504 with its database
interaction: after the guards, when a logged-in player and a game are
present the remote join is attempted and a failure is swallowed (the
catch block logs and falls through to the local logic); the local game
logic then always runs, merging into or appending to the local mirror. -/
def confirmGiftFlow (storeFails : Bool) (st : C8St) (req : ConfirmReq) :
    C8St :=
  if req.selEmpty then st
  else if req.name = "" then st
  else if 15 ≤ st.localPlayers.length then st
  else
    let st1 := match st.currentPlayerId, st.currentGameId with
      | some _, some gid =>
          let res := joinGameWithGifts storeFails st gid
          match res.1 with
          | some _ => { res.2 with
              remoteWrites := res.2.remoteWrites ++ ["log-join " ++ gid] }
          | none => res.2
      | _, _ => st
    if st1.localPlayers.any (fun p => p.name = req.name) then
      { st1 with localPlayers := st1.localPlayers.map (fun p =>
          if p.name = req.name then
            { p with gifts := p.gifts ++ req.emojis,
                     giftValue := p.giftValue + req.giftValue }
          else p) }
    else
      { st1 with localPlayers := st1.localPlayers ++
          [{ id := req.rid, name := req.name, balance := 0,
             color := COLORS.getD (st1.localPlayers.length % COLORS.length) "",
             gifts := req.emojis, giftValue := req.giftValue }] }

/-- Remote writes issued by the next spin (spinWheel lines 440-442 and
479-492): a spin log whenever a game id is present, plus the completion
write and the winner log when a player is also logged in. Nothing in the
code consults the error state before issuing them. -/
def spinRemoteWrites (st : C8St) : List String :=
  (match st.currentGameId with
   | some gid => ["log-spin " ++ gid]
   | none => []) ++
  (match st.currentGameId, st.currentPlayerId with
   | some gid, some _ => ["complete " ++ gid, "log-winner " ++ gid]
   | _, _ => [])

/-- Session in which player u is in round g with one participant already
present. -/
def st8 : C8St := ⟨[pA], some "g", some "u", none, []⟩

/-- Gift join request of player B used in the C8 scenario. -/
def req8 : ConfirmReq := ⟨"rb", "B", false, ["gift"], 1⟩

/-- Counterexample to claim C8: after the durable join write fails, the
error state is set and the participant is still added to the local
mirror, but remote writes for the same round are not suppressed — the
next spin still issues the spin log, the completion write and the winner
log for round g. -/
theorem c8_remote_writes_not_suppressed_counterexample :
    (confirmGiftFlow true st8 req8).errorFlag = some "Failed to join game" ∧
    (confirmGiftFlow true st8 req8).localPlayers.map Player.name = ["A", "B"] ∧
    spinRemoteWrites (confirmGiftFlow true st8 req8) =
      ["log-spin g", "complete g", "log-winner g"] := by
  refine ⟨rfl, ?_, rfl⟩
  rfl

/-- Claim C8 amended: when the durable store write fails during a join,
the join still succeeds for local gameplay — the participant is appended
to the local mirror and the failure surfaces as an error state set by the
hook rather than an exception — but further remote writes for that round
are not suppressed: the next spin still addresses the store for the same
round. -/
theorem c8_join_failure_local_continuity (st : C8St) (req : ConfirmReq)
    (pid gid : String)
    (hsel : req.selEmpty = false) (hname : ¬ req.name = "")
    (hcap : st.localPlayers.length < 15)
    (hp : st.currentPlayerId = some pid) (hg : st.currentGameId = some gid)
    (hfresh : st.localPlayers.any (fun p => p.name = req.name) = false) :
    (confirmGiftFlow true st req).errorFlag = some "Failed to join game" ∧
    (confirmGiftFlow true st req).localPlayers =
      st.localPlayers ++
        [{ id := req.rid, name := req.name, balance := 0,
           color := COLORS.getD (st.localPlayers.length % COLORS.length) "",
           gifts := req.emojis, giftValue := req.giftValue }] ∧
    spinRemoteWrites (confirmGiftFlow true st req) ≠ [] := by
  have hcap2 : ¬ 15 ≤ st.localPlayers.length := by omega
  refine ⟨?_, ?_, ?_⟩ <;>
    simp [confirmGiftFlow, joinGameWithGifts, spinRemoteWrites, hsel, hname,
      hcap2, hp, hg, hfresh]

/-- Witness for c8_join_failure_local_continuity at the concrete failing
join of player B into round g. -/
theorem c8_join_failure_local_continuity_witness :
    (confirmGiftFlow true st8 req8).errorFlag = some "Failed to join game" ∧
    (confirmGiftFlow true st8 req8).localPlayers =
      st8.localPlayers ++
        [{ id := req8.rid, name := req8.name, balance := 0,
           color := COLORS.getD (st8.localPlayers.length % COLORS.length) "",
           gifts := req8.emojis, giftValue := req8.giftValue }] ∧
    spinRemoteWrites (confirmGiftFlow true st8 req8) ≠ [] :=
  c8_join_failure_local_continuity st8 req8 "u" "g" rfl (by decide)
    (by decide) rfl rfl (by decide)

/-- Log entry kinds of the GameLog interface. -/
inductive LogType where
  | join
  | spin
  | winner
  | info
deriving Repr, DecidableEq

/-- Entry of the client game log (interface GameLog). -/
structure GameLogEntry where
  lid : String
  message : String
  typ : LogType
deriving Repr, DecidableEq

/-- addToLog of WheelGame.tsx lines 221-229: the new entry is prepended
and only the first 19 previous entries are kept
(prev array sliced to 0..19). -/
def addToLog (log : List GameLogEntry) (e : GameLogEntry) :
    List GameLogEntry :=
  e :: log.take 19

/-- Modelled from the spec: dbHelpers.addGameLog (storage helper library,
not among the sources; the hook addGameLog of part_001 lines 391-403 only
delegates to it) inserts one game_logs row. Spec section 3: the event log
is append-only, ordered by time, never mutated or deleted. -/
def dbAppendGameLog (log : List GameLogEntry) (e : GameLogEntry) :
    List GameLogEntry :=
  log ++ [e]

/-- Numbered log entry used in the C9 counterexample. -/
def mkLogEntry (n : ℕ) : GameLogEntry := ⟨toString n, "entry", .info⟩

/-- A client log already holding 20 entries (ids 0 to 19, newest first in
the real log; the order is irrelevant to the counterexample). -/
def log20 : List GameLogEntry := (List.range 20).map mkLogEntry

/-- Counterexample to claim C9: entry 19 is present in a 20-entry client
log but absent after one more addToLog — a log operation deleted a
previously present entry. -/
theorem c9_local_log_drops_oldest_counterexample :
    (mkLogEntry 19 ∈ log20) ∧ ¬ (mkLogEntry 19 ∈ addToLog log20 (mkLogEntry 20)) := by
  constructor <;> decide

/-- Claim C9 amended: the durable game log only appends (modelled from
the spec for the missing storage helper); the client display log prepends
the new entry and keeps only the 19 most recent previous entries, so
entries beyond the newest 20 are dropped, while the retained entries are
carried over unmodified and the capped length stays at 20. -/
theorem c9_log_append_and_trim :
    (∀ (l : List GameLogEntry) (e : GameLogEntry),
        dbAppendGameLog l e = l ++ [e]) ∧
    (∀ (l : List GameLogEntry) (e : GameLogEntry),
        addToLog l e = e :: l.take 19) ∧
    (∀ (l : List GameLogEntry) (e x : GameLogEntry),
        x ∈ l.take 19 → x ∈ addToLog l e) ∧
    (∀ (l : List GameLogEntry) (e : GameLogEntry),
        19 ≤ l.length → (addToLog l e).length = 20) := by
  refine ⟨fun l e => rfl, fun l e => rfl, ?_, ?_⟩
  · intro l e x hx
    exact List.mem_cons_of_mem e hx
  · intro l e h
    rw [addToLog, List.length_cons, List.length_take, inf_eq_left.mpr h]

/-- Witness for c9_log_append_and_trim: a retained entry survives the
trim of the 20-entry log, and the capped length is 20. -/
theorem c9_log_append_and_trim_witness :
    (mkLogEntry 0 ∈ addToLog log20 (mkLogEntry 20)) ∧
    (addToLog log20 (mkLogEntry 20)).length = 20 :=
  ⟨c9_log_append_and_trim.2.2.1 log20 (mkLogEntry 20) (mkLogEntry 0) (by decide),
   c9_log_append_and_trim.2.2.2 log20 (mkLogEntry 20) (by decide)⟩

end PvpWheel
